import Mathlib

/-!
Verification of the finance-dashboard backend core: the JWT token manager
(pkg/jwt/jwt.go), the auth service (internal/service auth implementation),
and the transaction service with its rule-based categorization engine
(internal/service/transaction_service.go).

Shallow embedding conventions:
  - Go time.Time instants and durations are modelled as Int (no claim
    computes with sub-second precision).
  - Go float64 payload fields (amount, coordinates) are carried as Int;
    no operation in the verified core computes with them.
  - Go pointers that mean optionality (*string, *int) are Option.
  - The Postgres-backed repositories are modelled as in-memory lists with
    the exact row semantics of their SQL statements (find first matching
    row, DELETE all rows matching an id, UPDATE the listed columns of the
    rows matching an id).
  - Fallible operations return Except with an explicit error taxonomy.
-/

/-! ## Data model (internal/domain/model) -/

/-- Go model.User (internal/domain/model/user.go). -/
structure User where
  id : String
  email : String
  passwordHash : Option String
  googleID : Option String
  globalCurrency : String
  createdAt : Int
  updatedAt : Int
deriving Repr, DecidableEq

/-- Go model.UserCategoryRule (internal/domain/model/transaction.go). -/
structure UserCategoryRule where
  id : String
  userID : String
  keyword : String
  categoryID : Int
  createdAt : Int
deriving Repr, DecidableEq

/-- Go model.Transaction (internal/domain/model/transaction.go). -/
structure Transaction where
  id : String
  userID : String
  amount : Int
  currency : String
  description : String
  date : Int
  placeName : Option String
  placeLat : Option Int
  placeLon : Option Int
  categoryID : Option Int
  isConfirmed : Bool
  createdAt : Int
  updatedAt : Int
deriving Repr, DecidableEq

/-! ## Error taxonomy

The transaction service uses service.ErrUnauthorized for ownership
violations and propagates the repository not-found sentinel
(repo ErrUserNotFound, returned by the Postgres repositories on
pgx.ErrNoRows) unchanged. -/

inductive ServiceError where
  | unauthorized
  | notFound
deriving Repr, DecidableEq

/-- Go service.ErrInvalidCredentials, the single auth failure value. -/
inductive AuthError where
  | invalidCredentials
deriving Repr, DecidableEq

/-! ## String normalization and matching (strings.ToUpper, strings.Contains)

goToUpper models strings.ToUpper restricted to its ASCII fragment, which
is all the categorization contract depends on (both sides of the match go
through the same normalizer). -/

def goToUpper (s : String) : String := String.mk (s.data.map Char.toUpper)

/-- True when the first list is a leading segment of the second. -/
def listStartsWith : List Char → List Char → Bool
  | [], _ => true
  | _ :: _, [] => false
  | a :: as, b :: bs => (a == b) && listStartsWith as bs

/-- True when needle occurs contiguously inside the second list. -/
def listHasSub (needle : List Char) : List Char → Bool
  | [] => listStartsWith needle []
  | c :: rest => listStartsWith needle (c :: rest) || listHasSub needle rest

/-- Go strings.Contains(s, sub). -/
def goContains (s sub : String) : Bool := listHasSub sub.toList s.toList

/-! ## Categorization engine (transactionServiceImpl.Categorize) -/

/-- One iteration test of the Categorize loop: the uppercased keyword of
the rule occurs in the uppercased description. -/
def ruleMatches (descUpper : String) (r : UserCategoryRule) : Bool :=
  goContains descUpper (goToUpper r.keyword)

/-- The for-range loop body of Categorize: first matching rule assigns its
category id and confirms; exhausting the list only clears the confirmation
flag (the category id field is left untouched). -/
def categorizeLoop (descUpper : String) (tx : Transaction) :
    List UserCategoryRule → Transaction
  | [] => { tx with isConfirmed := false }
  | rule :: rest =>
    if ruleMatches descUpper rule then
      { tx with categoryID := some rule.categoryID, isConfirmed := true }
    else categorizeLoop descUpper tx rest

/-- transactionServiceImpl.Categorize: empty description returns the draft
unchanged without consulting the rule store; otherwise scan the rules of
the user in store order. The rules argument is the list returned by
ruleRepo.GetByUserID for the user of the transaction. -/
def categorize (rules : List UserCategoryRule) (tx : Transaction) : Transaction :=
  if tx.description = "" then tx
  else categorizeLoop (goToUpper tx.description) tx rules

/-- transactionServiceImpl.Create: stamp fresh id, ownership and
timestamps, then categorize; the repository stores exactly the returned
record. -/
def createTransaction (rules : List UserCategoryRule) (userID freshID : String)
    (now : Int) (tx : Transaction) : Transaction :=
  categorize rules
    { tx with id := freshID, userID := userID, createdAt := now, updatedAt := now }

/-! ## Rule store and rule management (DeleteRule)

The rule store is the full user_category_rules table; the Postgres
repository filters by user for GetByUserID and DELETEs by id for Delete. -/

/-- ruleRepo.GetByUserID: rows of the user in store order. -/
def rulesOfUser (store : List UserCategoryRule) (uid : String) : List UserCategoryRule :=
  store.filter (fun r => r.userID == uid)

/-- ruleRepo.Delete: DELETE FROM user_category_rules WHERE id. -/
def repoDeleteRule (store : List UserCategoryRule) (rid : String) : List UserCategoryRule :=
  store.filter (fun r => r.id != rid)

/-- The for-range loop of transactionServiceImpl.DeleteRule over the rules
of the requesting user: on the first id match, delete by id in the store;
an exhausted list yields ErrUnauthorized and leaves the store untouched. -/
def deleteRuleLoop (store : List UserCategoryRule) (rid : String) :
    List UserCategoryRule → Except ServiceError Unit × List UserCategoryRule
  | [] => (Except.error ServiceError.unauthorized, store)
  | r :: rest =>
    if r.id == rid then (Except.ok (), repoDeleteRule store rid)
    else deleteRuleLoop store rid rest

/-- transactionServiceImpl.DeleteRule: fetch the rules of the requesting
user, scan them for the requested id, and only then call the repository
delete. Returns the outcome together with the resulting store state. -/
def deleteRule (store : List UserCategoryRule) (uid rid : String) :
    Except ServiceError Unit × List UserCategoryRule :=
  deleteRuleLoop store rid (rulesOfUser store uid)

/-! ## Transaction store operations (GetByID, Update, Delete) -/

/-- Row lookup of the transactions table by primary key: the first row
whose id matches. -/
def txFind : List Transaction → String → Option Transaction
  | [], _ => none
  | t :: rest, tid => if t.id == tid then some t else txFind rest tid

/-- txRepo.GetByID: pgx.ErrNoRows becomes the repository not-found
sentinel, which the service propagates unchanged. -/
def txRepoGetByID (store : List Transaction) (tid : String) :
    Except ServiceError Transaction :=
  match txFind store tid with
  | some t => Except.ok t
  | none => Except.error ServiceError.notFound

/-- txRepo.Update: UPDATE transactions SET amount, currency, description,
date, place, category_id, is_confirmed, updated_at WHERE id; user_id and
created_at columns are not in the SET list. -/
def txRepoUpdate (store : List Transaction) (tx : Transaction) (now : Int) :
    List Transaction :=
  store.map (fun t =>
    if t.id == tx.id then
      { tx with userID := t.userID, createdAt := t.createdAt, updatedAt := now }
    else t)

/-- txRepo.Delete: DELETE FROM transactions WHERE id. -/
def txRepoDelete (store : List Transaction) (tid : String) : List Transaction :=
  store.filter (fun t => t.id != tid)

/-- transactionServiceImpl.GetByID: load by id, then compare the owning
user id against the caller. -/
def getTransactionByID (store : List Transaction) (uid tid : String) :
    Except ServiceError Transaction :=
  match txRepoGetByID store tid with
  | Except.error e => Except.error e
  | Except.ok t =>
    if t.userID ≠ uid then Except.error ServiceError.unauthorized
    else Except.ok t

/-- transactionServiceImpl.Update: load the existing record, check
ownership, write the draft, and re-read the stored row. Returns the
outcome together with the resulting store state. -/
def updateTransaction (store : List Transaction) (uid : String) (tx : Transaction)
    (now : Int) : Except ServiceError Transaction × List Transaction :=
  match txRepoGetByID store tx.id with
  | Except.error e => (Except.error e, store)
  | Except.ok existing =>
    if existing.userID ≠ uid then (Except.error ServiceError.unauthorized, store)
    else
      match txRepoGetByID (txRepoUpdate store tx now) tx.id with
      | Except.error e => (Except.error e, txRepoUpdate store tx now)
      | Except.ok t2 => (Except.ok t2, txRepoUpdate store tx now)

/-- transactionServiceImpl.Delete: load the existing record, check
ownership, then delete by id. -/
def deleteTransaction (store : List Transaction) (uid tid : String) :
    Except ServiceError Unit × List Transaction :=
  match txRepoGetByID store tid with
  | Except.error e => (Except.error e, store)
  | Except.ok t =>
    if t.userID ≠ uid then (Except.error ServiceError.unauthorized, store)
    else (Except.ok (), txRepoDelete store tid)

/-! ## Credential store and identity service (auth service implementation)

The verify parameter stands for the external bcrypt comparison
(bcrypt.CompareHashAndPassword succeeding); Login only branches on its
Boolean outcome. -/

/-- userRepo.GetByEmail as a row lookup; none is the ErrUserNotFound
sentinel of the Postgres user repository. -/
def userFindByEmail : List User → String → Option User
  | [], _ => none
  | u :: rest, email => if u.email == email then some u else userFindByEmail rest email

/-- userRepo.GetByGoogleID as a row lookup. -/
def userFindByGoogleID : List User → String → Option User
  | [], _ => none
  | u :: rest, gid =>
    if u.googleID == some gid then some u else userFindByGoogleID rest gid

/-- authServiceImpl.Login: not-found, missing password hash, and a failed
hash comparison all return the one ErrInvalidCredentials value. -/
def login (verify : String → String → Bool) (users : List User)
    (email password : String) : Except AuthError User :=
  match userFindByEmail users email with
  | none => Except.error AuthError.invalidCredentials
  | some user =>
    match user.passwordHash with
    | none => Except.error AuthError.invalidCredentials
    | some hash =>
      if verify hash password then Except.ok user
      else Except.error AuthError.invalidCredentials

/-- userRepo.Update applied to one stored row: UPDATE users SET email,
password_hash, google_id, global_currency, updated_at WHERE id; the
created_at column of the row is not touched. -/
def userUpdateRow (u : User) (w : User) : User :=
  if w.id == u.id then { u with createdAt := w.createdAt } else w

/-- authServiceImpl.LoginWithGoogle: find by Google id; else find by email
and link the Google id onto that account (userRepo.Update writes the row
and stamps UpdatedAt on the returned record); else create a fresh user
with only the federated id set (userRepo.Create stamps both timestamps).
Returns the user together with the resulting store state. -/
def loginWithGoogle (users : List User) (gid email freshID : String) (now : Int) :
    User × List User :=
  match userFindByGoogleID users gid with
  | some u => (u, users)
  | none =>
    match userFindByEmail users email with
    | some u =>
      ({ u with googleID := some gid, updatedAt := now },
       users.map (userUpdateRow { u with googleID := some gid, updatedAt := now }))
    | none =>
      ({ id := freshID, email := email, passwordHash := none, googleID := some gid,
         globalCurrency := "RUB", createdAt := now, updatedAt := now },
       users ++
         [ { id := freshID, email := email, passwordHash := none, googleID := some gid,
             globalCurrency := "RUB", createdAt := now, updatedAt := now } ])

/-! ## Token service (pkg/jwt/jwt.go over golang-jwt v5)

A signed token is modelled as the signing method, the signing key, and
the JSON claim object it carries. Signature verification of an HS256
token succeeds exactly when the verifying key equals the signing key.
JSON decoding into a Go claims struct ignores unknown object fields and
leaves absent fields at their zero value, so both validators decode any
payload. The v5 validator checks exp (expired when now is not before
exp), iat (future issued-at rejected) and nbf (future not-before
rejected); absent fields pass. It joins all failed checks into one
error; here the first failed check in that order is reported, and every
theorem below exercises inputs where at most one check fails. -/

/-- The JSON claim object carried by a token. Field names follow the wire
names: user_id and email from jwt.Claims, sub, exp, iat, nbf and jti from
jwt.RegisteredClaims. -/
structure TokenPayload where
  userID : Option String
  email : Option String
  sub : Option String
  exp : Option Int
  iat : Option Int
  nbf : Option Int
  jti : Option String
deriving Repr, DecidableEq

inductive SigningMethod where
  | hs256
  | other
deriving Repr, DecidableEq

/-- A produced token string, abstracted to its verifiable content. -/
structure SignedToken where
  method : SigningMethod
  key : String
  payload : TokenPayload
deriving Repr, DecidableEq

/-- Go jwt.Manager. -/
structure Manager where
  secretKey : String
  accessDuration : Int
  refreshDuration : Int
deriving Repr, DecidableEq

/-- The decoded claims struct of ValidateAccessToken (jwt.Claims embeds
jwt.RegisteredClaims); absent JSON fields decode to zero values. -/
structure Claims where
  userID : String
  email : String
  sub : String
  exp : Option Int
  iat : Option Int
  nbf : Option Int
  jti : String
deriving Repr, DecidableEq

inductive TokenError where
  | invalidToken
  | expired
  | usedBeforeIssued
  | notValidYet
deriving Repr, DecidableEq

/-- Manager.GenerateAccessToken at instant now with the generated uuid
jti: user id, email, exp = now + accessDuration, iat = nbf = now. -/
def generateAccessToken (m : Manager) (userID email : String) (now : Int)
    (jti : String) : SignedToken :=
  { method := SigningMethod.hs256, key := m.secretKey,
    payload :=
      { userID := some userID, email := some email, sub := none,
        exp := some (now + m.accessDuration), iat := some now, nbf := some now,
        jti := some jti } }

/-- Manager.GenerateRefreshToken at instant now: subject only, exp =
now + refreshDuration, iat = nbf = now, no user_id or email field. -/
def generateRefreshToken (m : Manager) (userID : String) (now : Int)
    (jti : String) : SignedToken :=
  { method := SigningMethod.hs256, key := m.secretKey,
    payload :=
      { userID := none, email := none, sub := some userID,
        exp := some (now + m.refreshDuration), iat := some now, nbf := some now,
        jti := some jti } }

/-- The v5 registered-claim time checks at instant now, first failure in
validator order exp, iat, nbf. -/
def validateTimeClaims (p : TokenPayload) (now : Int) : Option TokenError :=
  if p.exp.any (fun e => e ≤ now) then some TokenError.expired
  else if p.iat.any (fun i => now < i) then some TokenError.usedBeforeIssued
  else if p.nbf.any (fun n => now < n) then some TokenError.notValidYet
  else none

/-- The shared parse of both validators: the keyfunc rejects a non-HMAC
method with ErrInvalidToken, signature verification compares keys, then
the registered time claims are checked. -/
def parseToken (m : Manager) (tok : SignedToken) (now : Int) : Option TokenError :=
  match tok.method with
  | SigningMethod.other => some TokenError.invalidToken
  | SigningMethod.hs256 =>
    if tok.key ≠ m.secretKey then some TokenError.invalidToken
    else validateTimeClaims tok.payload now

/-- JSON decoding of a payload into the jwt.Claims struct. -/
def decodeClaims (p : TokenPayload) : Claims :=
  { userID := p.userID.getD "", email := p.email.getD "", sub := p.sub.getD "",
    exp := p.exp, iat := p.iat, nbf := p.nbf, jti := p.jti.getD "" }

/-- Manager.ValidateAccessToken: parse with a jwt.Claims target and
return the decoded claims on success. -/
def validateAccessToken (m : Manager) (tok : SignedToken) (now : Int) :
    Except TokenError Claims :=
  match parseToken m tok now with
  | some e => Except.error e
  | none => Except.ok (decodeClaims tok.payload)

/-- Manager.ValidateRefreshToken: parse with a jwt.RegisteredClaims
target and return the decoded subject on success. -/
def validateRefreshToken (m : Manager) (tok : SignedToken) (now : Int) :
    Except TokenError String :=
  match parseToken m tok now with
  | some e => Except.error e
  | none => Except.ok (decodeClaims tok.payload).sub

/-! ## Demo fixtures used by witnesses and counterexamples -/

def demoRules : List UserCategoryRule :=
  [ { id := "r1", userID := "u1", keyword := "COFFEE", categoryID := 3, createdAt := 0 },
    { id := "r2", userID := "u1", keyword := "UBER", categoryID := 7, createdAt := 0 } ]

def txStarbucks : Transaction :=
  { id := "", userID := "", amount := 1250, currency := "RUB",
    description := "Starbucks Coffee Downtown", date := 0, placeName := none,
    placeLat := none, placeLon := none, categoryID := none, isConfirmed := false,
    createdAt := 0, updatedAt := 0 }

def txGrocery : Transaction :=
  { txStarbucks with description := "Grocery Store" }

def txGroceryPreset : Transaction :=
  { txStarbucks with description := "Grocery Store", categoryID := some 5 }

def txEmptyPreset : Transaction :=
  { txStarbucks with description := "", categoryID := some 5, isConfirmed := true }

def ruleA : UserCategoryRule :=
  { id := "rA", userID := "A", keyword := "COFFEE", categoryID := 3, createdAt := 0 }

def ruleB : UserCategoryRule :=
  { id := "rB", userID := "B", keyword := "TAXI", categoryID := 8, createdAt := 0 }

def ruleStoreAB : List UserCategoryRule := [ ruleA, ruleB ]

def txStored : Transaction := { txStarbucks with id := "tA", userID := "A" }

def txStoreA : List Transaction := [ txStored ]

def userAlice : User :=
  { id := "uA", email := "alice@x.io", passwordHash := some "h1", googleID := none,
    globalCurrency := "RUB", createdAt := 0, updatedAt := 0 }

def userFed : User :=
  { id := "uF", email := "fed@x.io", passwordHash := none, googleID := some "g7",
    globalCurrency := "RUB", createdAt := 0, updatedAt := 0 }

def userStore : List User := [ userAlice, userFed ]

/-- Stand-in for the external bcrypt comparison in witnesses. -/
def demoVerify (hash password : String) : Bool := hash == password

def demoManager : Manager :=
  { secretKey := "k", accessDuration := 900, refreshDuration := 86400 }
/-! ## Helper lemmas: categorization loop -/

theorem categorizeLoop_first_match (d : String) (tx : Transaction) :
    ∀ (rules : List UserCategoryRule) (i : Nat) (hi : i < rules.length),
      ruleMatches d (rules.get ⟨i, hi⟩) = true →
      (∀ j (hj : j < rules.length), j < i → ruleMatches d (rules.get ⟨j, hj⟩) = false) →
      categorizeLoop d tx rules
        = { tx with categoryID := some (rules.get ⟨i, hi⟩).categoryID, isConfirmed := true }
  | r :: rest, 0, _, hm, _ => by
    simp only [List.get] at hm
    simp [categorizeLoop, hm]
  | r :: rest, n + 1, hi, hm, hb => by
    have h0 : ruleMatches d r = false := hb 0 (by omega) (by omega)
    simp only [categorizeLoop, h0, if_neg]
    simp only [List.get] at hm ⊢
    have hi2 : n < rest.length := by simp only [List.length_cons] at hi; omega
    exact categorizeLoop_first_match d tx rest n hi2 hm
      (fun j hj hji => hb (j + 1) (by simp only [List.length_cons]; omega) (by omega))

theorem categorizeLoop_no_match (d : String) (tx : Transaction) :
    ∀ (rules : List UserCategoryRule),
      (∀ r ∈ rules, ruleMatches d r = false) →
      categorizeLoop d tx rules = { tx with isConfirmed := false }
  | [], _ => rfl
  | r :: rest, hb => by
    have h0 : ruleMatches d r = false := hb r (List.mem_cons_self r rest)
    simp only [categorizeLoop, h0, if_neg]
    exact categorizeLoop_no_match d tx rest (fun x hx => hb x (List.mem_cons_of_mem r hx))

theorem categorizeLoop_isConfirmed (d : String) (tx : Transaction) :
    ∀ rules : List UserCategoryRule,
      (categorizeLoop d tx rules).isConfirmed = rules.any (ruleMatches d)
  | [] => by simp [categorizeLoop]
  | r :: rest => by
    by_cases h : ruleMatches d r = true
    · simp [categorizeLoop, h]
    · simp only [Bool.not_eq_true] at h
      simp [categorizeLoop, h, categorizeLoop_isConfirmed d tx rest]

theorem categorizeLoop_categoryID_of_not_confirmed (d : String) (tx : Transaction) :
    ∀ rules : List UserCategoryRule,
      (categorizeLoop d tx rules).isConfirmed = false →
      (categorizeLoop d tx rules).categoryID = tx.categoryID
  | [], _ => rfl
  | r :: rest, hc => by
    by_cases h : ruleMatches d r = true
    · simp [categorizeLoop, h] at hc
    · simp only [Bool.not_eq_true] at h
      simp only [categorizeLoop, h, if_neg, Bool.false_eq_true] at hc ⊢
      exact categorizeLoop_categoryID_of_not_confirmed d tx rest hc

/-- C2: for a draft with non-empty description, Categorize assigns the
category id of the first rule in store order whose normalized keyword
occurs in the normalized description and confirms the draft; the result
depends only on that first matching rule. -/
theorem claim_C2_first_match_in_store_order (tx : Transaction)
    (rules : List UserCategoryRule) (i : Nat) (hd : ¬ tx.description = "")
    (hi : i < rules.length)
    (hm : ruleMatches (goToUpper tx.description) (rules.get ⟨i, hi⟩) = true)
    (hb : ∀ j (hj : j < rules.length), j < i →
      ruleMatches (goToUpper tx.description) (rules.get ⟨j, hj⟩) = false) :
    categorize rules tx
      = { tx with categoryID := some (rules.get ⟨i, hi⟩).categoryID,
                  isConfirmed := true } := by
  unfold categorize
  rw [if_neg hd]
  exact categorizeLoop_first_match (goToUpper tx.description) tx rules i hi hm hb

/-- C2 witness: the COFFEE rule (category 3) wins on the Starbucks
description. -/
theorem claim_C2_witness :
    categorize demoRules txStarbucks
      = { txStarbucks with categoryID := some 3, isConfirmed := true } := by
  have h := claim_C2_first_match_in_store_order txStarbucks demoRules 0
    (by decide) (by decide) (by decide) (fun j hj hji => absurd hji (by omega))
  exact h

/-- C3 counterexample: the Grocery Store draft with a caller-preset
category id 5 matches no rule, yet Categorize returns category id 5, not
null: the no-match branch never clears the category id field. -/
theorem claim_C3_counterexample :
    (¬ txGroceryPreset.description = "")
  ∧ (∀ r ∈ demoRules, ruleMatches (goToUpper txGroceryPreset.description) r = false)
  ∧ (categorize demoRules txGroceryPreset).categoryID = some 5
  ∧ (categorize demoRules txGroceryPreset).isConfirmed = false := by decide

/-- C3 amended: when a non-empty description matches no rule, Categorize
sets is_confirmed = false and leaves the category id field unchanged; in
particular the category id stays null exactly when the draft arrived with
a null category id. -/
theorem claim_C3_no_match_leaves_unconfirmed (tx : Transaction)
    (rules : List UserCategoryRule) (hd : ¬ tx.description = "")
    (hb : ∀ r ∈ rules, ruleMatches (goToUpper tx.description) r = false) :
    categorize rules tx = { tx with isConfirmed := false }
  ∧ (tx.categoryID = none → (categorize rules tx).categoryID = none) := by
  have hc : categorize rules tx = { tx with isConfirmed := false } := by
    unfold categorize
    rw [if_neg hd]
    exact categorizeLoop_no_match (goToUpper tx.description) tx rules hb
  exact ⟨hc, fun h0 => by rw [hc]; exact h0⟩

/-- C3 witness: the clean Grocery Store draft stays uncategorized and
unconfirmed. -/
theorem claim_C3_witness :
    categorize demoRules txGrocery = { txGrocery with isConfirmed := false }
  ∧ (txGrocery.categoryID = none → (categorize demoRules txGrocery).categoryID = none) :=
  claim_C3_no_match_leaves_unconfirmed txGrocery demoRules (by decide) (by decide)

/-- C4 counterexample: a draft with empty description and caller-preset
category id 5 and is_confirmed = true passes through Create untouched by
categorization: the stored transaction has is_confirmed = true without
any rule match, and category id 5 instead of null. -/
theorem claim_C4_counterexample :
    (createTransaction demoRules "u1" "t9" 0 txEmptyPreset).isConfirmed = true
  ∧ (createTransaction demoRules "u1" "t9" 0 txEmptyPreset).categoryID = some 5 := by
  decide

/-- C4 amended: for drafts that arrive with a null category id and
is_confirmed = false, every transaction produced by Create is confirmed
exactly when the description is non-empty and some rule matches it, and
an unconfirmed result always carries a null category id. -/
theorem claim_C4_clean_draft_invariant (rules : List UserCategoryRule)
    (uid fid : String) (now : Int) (tx : Transaction)
    (hcat : tx.categoryID = none) (hconf : tx.isConfirmed = false) :
    ((createTransaction rules uid fid now tx).isConfirmed = true ↔
      (¬ tx.description = "" ∧ ∃ r ∈ rules, ruleMatches (goToUpper tx.description) r = true))
  ∧ ((createTransaction rules uid fid now tx).isConfirmed = false →
      (createTransaction rules uid fid now tx).categoryID = none) := by
  unfold createTransaction categorize
  by_cases hd : tx.description = ""
  · simp [hd, hconf, hcat]
  · simp only [hd, if_false]
    constructor
    · rw [categorizeLoop_isConfirmed]
      simp [hd, List.any_eq_true]
    · intro hfalse
      rw [categorizeLoop_categoryID_of_not_confirmed _ _ _ hfalse]
      exact hcat

/-- C4 witness: the clean Grocery Store draft is stored unconfirmed with a
null category id, and its confirmation is equivalent to a rule match. -/
theorem claim_C4_witness :
    ((createTransaction demoRules "u1" "t1" 0 txGrocery).isConfirmed = true ↔
      (¬ txGrocery.description = "" ∧
        ∃ r ∈ demoRules, ruleMatches (goToUpper txGrocery.description) r = true))
  ∧ ((createTransaction demoRules "u1" "t1" 0 txGrocery).isConfirmed = false →
      (createTransaction demoRules "u1" "t1" 0 txGrocery).categoryID = none) :=
  claim_C4_clean_draft_invariant demoRules "u1" "t1" 0 txGrocery rfl rfl

/-! ## Helper lemmas: DeleteRule -/

theorem deleteRuleLoop_no_id (store : List UserCategoryRule) (rid : String) :
    ∀ sub : List UserCategoryRule, (∀ r ∈ sub, ¬ r.id = rid) →
      deleteRuleLoop store rid sub = (Except.error ServiceError.unauthorized, store)
  | [], _ => rfl
  | r :: rest, hb => by
    have h0 : ¬ r.id = rid := hb r (List.mem_cons_self r rest)
    simp only [deleteRuleLoop, beq_iff_eq, h0, if_false]
    exact deleteRuleLoop_no_id store rid rest (fun x hx => hb x (List.mem_cons_of_mem r hx))

theorem deleteRuleLoop_ok (store : List UserCategoryRule) (rid : String) :
    ∀ sub : List UserCategoryRule,
      (deleteRuleLoop store rid sub).1 = Except.ok () →
      (∃ r ∈ sub, r.id = rid) ∧ (deleteRuleLoop store rid sub).2 = repoDeleteRule store rid
  | [], h => by simp [deleteRuleLoop] at h
  | r :: rest, h => by
    by_cases h0 : r.id = rid
    · simp only [deleteRuleLoop, beq_iff_eq, h0, if_true]
      exact ⟨⟨r, List.mem_cons_self r rest, h0⟩, by simp⟩
    · simp only [deleteRuleLoop, beq_iff_eq, h0, if_false] at h ⊢
      obtain ⟨⟨x, hx, hxid⟩, hs⟩ := deleteRuleLoop_ok store rid rest h
      exact ⟨⟨x, List.mem_cons_of_mem r hx, hxid⟩, hs⟩

theorem deleteRuleLoop_found (store : List UserCategoryRule) (rid : String) :
    ∀ sub : List UserCategoryRule, (∃ r ∈ sub, r.id = rid) →
      deleteRuleLoop store rid sub = (Except.ok (), repoDeleteRule store rid)
  | [], h => absurd h (by simp)
  | r :: rest, h => by
    by_cases h0 : r.id = rid
    · simp [deleteRuleLoop, h0]
    · simp only [deleteRuleLoop, beq_iff_eq, h0, if_false]
      obtain ⟨x, hx, hxid⟩ := h
      rcases List.mem_cons.mp hx with he | hm
      · exact absurd (he ▸ hxid) h0
      · exact deleteRuleLoop_found store rid rest ⟨x, hm, hxid⟩

theorem deleteRuleLoop_error (store : List UserCategoryRule) (rid : String) :
    ∀ sub : List UserCategoryRule,
      (deleteRuleLoop store rid sub).1 = Except.error ServiceError.unauthorized →
      (deleteRuleLoop store rid sub).2 = store
  | [], _ => rfl
  | r :: rest, h => by
    by_cases h0 : r.id = rid
    · simp [deleteRuleLoop, h0] at h
    · simp only [deleteRuleLoop, beq_iff_eq, h0, if_false] at h ⊢
      exact deleteRuleLoop_error store rid rest h

/-- C5 counterexample: with a store that contains no rule with id ghost
for any user, DeleteRule requested by user B fails with Unauthorized, not
with NotFound as the claim requires. -/
theorem claim_C5_counterexample :
    (∀ r ∈ ruleStoreAB, ¬ r.id = "ghost")
  ∧ deleteRule ruleStoreAB "B" "ghost"
      = (Except.error ServiceError.unauthorized, ruleStoreAB)
  ∧ ServiceError.unauthorized ≠ ServiceError.notFound :=
  ⟨by decide, rfl, by decide⟩

/-- C5 amended: DeleteRule fails with Unauthorized whenever the requested
rule id does not belong to the requesting user, both when the rule is
owned by a different user and when it does not exist at all (the store is
left unchanged); it performs a deletion only when the rule id occurs in
the rule list of the requester. -/
theorem claim_C5_unauthorized_amended (store : List UserCategoryRule)
    (b rid : String) :
    ((∀ r ∈ store, ¬ (r.id = rid ∧ r.userID = b)) →
      deleteRule store b rid = (Except.error ServiceError.unauthorized, store))
  ∧ ((deleteRule store b rid).1 = Except.ok () →
      ∃ r ∈ store, r.id = rid ∧ r.userID = b) := by
  constructor
  · intro hno
    unfold deleteRule
    apply deleteRuleLoop_no_id
    intro r hr
    rw [rulesOfUser, List.mem_filter] at hr
    intro hid
    exact hno r hr.1 ⟨hid, by simpa using hr.2⟩
  · intro hok
    obtain ⟨⟨r, hr, hrid⟩, _⟩ := deleteRuleLoop_ok store rid (rulesOfUser store b) hok
    rw [rulesOfUser, List.mem_filter] at hr
    exact ⟨r, hr.1, hrid, by simpa using hr.2⟩

/-- C5 witness: deleting the rule of user A as user B fails with
Unauthorized and leaves the store unchanged. -/
theorem claim_C5_witness :
    deleteRule ruleStoreAB "B" "rA"
      = (Except.error ServiceError.unauthorized, ruleStoreAB) :=
  (claim_C5_unauthorized_amended ruleStoreAB "B" "rA").1 (by decide)

/-- C10: under the primary-key invariant that rule ids are unique in the
store, every rule owned by a user other than the requester survives
DeleteRule whatever rule id is requested; an Unauthorized outcome leaves
the store unchanged; and a deletion is performed only for a rule id that
occurs in the rule list of the requester. -/
theorem claim_C10_delete_rule_safety (store : List UserCategoryRule)
    (b rid : String) (hids : (store.map (fun r => r.id)).Nodup) :
    (∀ g ∈ store, ¬ g.userID = b → g ∈ (deleteRule store b rid).2)
  ∧ ((deleteRule store b rid).1 = Except.error ServiceError.unauthorized →
      (deleteRule store b rid).2 = store)
  ∧ ((deleteRule store b rid).1 = Except.ok () →
      ∃ r ∈ rulesOfUser store b, r.id = rid) := by
  unfold deleteRule
  refine ⟨?_, deleteRuleLoop_error store rid (rulesOfUser store b), ?_⟩
  · intro g hg hgb
    by_cases hmem : ∀ r ∈ rulesOfUser store b, ¬ r.id = rid
    · rw [deleteRuleLoop_no_id store rid (rulesOfUser store b) hmem]
      exact hg
    · push_neg at hmem
      obtain ⟨r, hr, hrid⟩ := hmem
      rw [deleteRuleLoop_found store rid (rulesOfUser store b) ⟨r, hr, hrid⟩]
      rw [rulesOfUser, List.mem_filter] at hr
      have hgr : ¬ g = r := fun he => hgb (by rw [he]; simpa using hr.2)
      have hgid : ¬ g.id = rid := by
        intro hgid
        exact hgr (List.inj_on_of_nodup_map hids hg hr.1 (by rw [hgid, hrid]))
      rw [repoDeleteRule, List.mem_filter]
      exact ⟨hg, by simpa [bne_iff_ne] using hgid⟩
  · intro hok
    obtain ⟨hex, _⟩ := deleteRuleLoop_ok store rid (rulesOfUser store b) hok
    exact hex

/-! ## Helper lemmas: transaction lookups -/

theorem txFind_update_isSome (tx : Transaction) (now : Int) :
    ∀ store : List Transaction, (txFind store tx.id).isSome = true →
      (txFind (txRepoUpdate store tx now) tx.id).isSome = true
  | [], h => by simp [txFind] at h
  | t :: rest, h => by
    by_cases h0 : t.id = tx.id
    · simp [txFind, txRepoUpdate, h0]
    · have hb : (t.id == tx.id) = false := by simp [h0]
      simp only [txFind, txRepoUpdate, List.map_cons, hb, Bool.false_eq_true, if_false]
        at h ⊢
      exact txFind_update_isSome tx now rest h

/-! ## C6 -/

/-- C6: GetByID, Update and Delete all load the stored record first; when
the record exists and belongs to a different user the outcome is
Unauthorized, and each of the three operations reports NotFound exactly
when no transaction with that id exists in the store. -/
theorem claim_C6_ownership_and_not_found (store : List Transaction)
    (uid : String) (draft : Transaction) (now : Int) :
    (∀ t, txFind store draft.id = some t → ¬ t.userID = uid →
        getTransactionByID store uid draft.id = Except.error ServiceError.unauthorized
      ∧ (updateTransaction store uid draft now).1 = Except.error ServiceError.unauthorized
      ∧ (deleteTransaction store uid draft.id).1 = Except.error ServiceError.unauthorized)
  ∧ (txFind store draft.id = none →
        getTransactionByID store uid draft.id = Except.error ServiceError.notFound
      ∧ (updateTransaction store uid draft now).1 = Except.error ServiceError.notFound
      ∧ (deleteTransaction store uid draft.id).1 = Except.error ServiceError.notFound)
  ∧ (getTransactionByID store uid draft.id = Except.error ServiceError.notFound →
      txFind store draft.id = none)
  ∧ ((updateTransaction store uid draft now).1 = Except.error ServiceError.notFound →
      txFind store draft.id = none)
  ∧ ((deleteTransaction store uid draft.id).1 = Except.error ServiceError.notFound →
      txFind store draft.id = none) := by
  refine ⟨?_, ?_, ?_, ?_, ?_⟩
  · intro t ht hus
    simp [getTransactionByID, updateTransaction, deleteTransaction, txRepoGetByID, ht, hus]
  · intro hnone
    simp [getTransactionByID, updateTransaction, deleteTransaction, txRepoGetByID, hnone]
  · intro hnf
    rcases ht : txFind store draft.id with _ | t
    · rfl
    · by_cases hus : t.userID = uid <;>
        simp [getTransactionByID, txRepoGetByID, ht, hus] at hnf
  · intro hnf
    rcases ht : txFind store draft.id with _ | t
    · rfl
    · exfalso
      by_cases hus : t.userID = uid
      · have hsome : (txFind (txRepoUpdate store draft now) draft.id).isSome = true :=
          txFind_update_isSome draft now store (by simp [ht])
        rcases ht2 : txFind (txRepoUpdate store draft now) draft.id with _ | t2
        · rw [ht2] at hsome; simp at hsome
        · simp [updateTransaction, txRepoGetByID, ht, hus, ht2] at hnf
      · simp [updateTransaction, txRepoGetByID, ht, hus] at hnf
  · intro hnf
    rcases ht : txFind store draft.id with _ | t
    · rfl
    · by_cases hus : t.userID = uid <;>
        simp [deleteTransaction, txRepoGetByID, ht, hus] at hnf

/-- C6 witness: user B probing the transaction of user A gets
Unauthorized from all three operations. -/
theorem claim_C6_witness :
    getTransactionByID txStoreA "B" txStored.id = Except.error ServiceError.unauthorized
  ∧ (updateTransaction txStoreA "B" txStored 0).1 = Except.error ServiceError.unauthorized
  ∧ (deleteTransaction txStoreA "B" txStored.id).1
      = Except.error ServiceError.unauthorized :=
  (claim_C6_ownership_and_not_found txStoreA "B" txStored 0).1 txStored
    (by decide) (by decide)

/-! ## C7 -/

/-- C7: Login returns the one ErrInvalidCredentials value in all three
failing cases, for every store state, every hash comparison function and
every input: unknown email, account without a password hash, and failed
hash comparison are indistinguishable from the returned error. -/
theorem claim_C7_login_uniform_failure (verify : String → String → Bool)
    (users : List User) (email password : String) :
    (userFindByEmail users email = none →
      login verify users email password = Except.error AuthError.invalidCredentials)
  ∧ (∀ u, userFindByEmail users email = some u → u.passwordHash = none →
      login verify users email password = Except.error AuthError.invalidCredentials)
  ∧ (∀ u h, userFindByEmail users email = some u → u.passwordHash = some h →
      verify h password = false →
      login verify users email password = Except.error AuthError.invalidCredentials) := by
  refine ⟨?_, ?_, ?_⟩
  · intro hnone
    simp [login, hnone]
  · intro u hu hh
    simp [login, hu, hh]
  · intro u h hu hh hv
    simp [login, hu, hh, hv]

/-- C7 witness: a nonexistent email, a federated-only account, and a
wrong password against a demo store all yield the identical error. -/
theorem claim_C7_witness :
    login demoVerify userStore "nobody@x.io" "pw"
      = Except.error AuthError.invalidCredentials
  ∧ login demoVerify userStore "fed@x.io" "pw"
      = Except.error AuthError.invalidCredentials
  ∧ login demoVerify userStore "alice@x.io" "wrong"
      = Except.error AuthError.invalidCredentials :=
  ⟨(claim_C7_login_uniform_failure demoVerify userStore "nobody@x.io" "pw").1 (by decide),
   (claim_C7_login_uniform_failure demoVerify userStore "fed@x.io" "pw").2.1 userFed
     (by decide) rfl,
   (claim_C7_login_uniform_failure demoVerify userStore "alice@x.io" "wrong").2.2 userAlice
     "h1" (by decide) rfl (by decide)⟩

/-! ## Helper lemmas: federated login -/

theorem userFindByEmail_mem (email : String) :
    ∀ users : List User, ∀ u : User, userFindByEmail users email = some u → u ∈ users
  | [], u, h => by simp [userFindByEmail] at h
  | w :: rest, u, h => by
    by_cases h0 : w.email = email
    · simp only [userFindByEmail, h0, beq_self_eq_true, if_true, Option.some.injEq] at h
      exact h ▸ List.mem_cons_self w rest
    · have hb : (w.email == email) = false := by simp [h0]
      simp only [userFindByEmail, hb, Bool.false_eq_true, if_false] at h
      exact List.mem_cons_of_mem w (userFindByEmail_mem email rest u h)

theorem findGoogle_after_link (gid : String) (u2 : User)
    (hg : u2.googleID = some gid) :
    ∀ users : List User, userFindByGoogleID users gid = none →
      (∃ w ∈ users, w.id = u2.id) →
      ∃ v, userFindByGoogleID (users.map (userUpdateRow u2)) gid = some v ∧ v.id = u2.id
  | [], _, hex => absurd hex (by simp)
  | u :: rest, hnone, hex => by
    have hhead : (u.googleID == some gid) = false := by
      by_contra hcon
      simp only [Bool.not_eq_false, beq_iff_eq] at hcon
      simp [userFindByGoogleID, hcon] at hnone
    have htail : userFindByGoogleID rest gid = none := by
      simpa only [userFindByGoogleID, hhead, Bool.false_eq_true, if_false] using hnone
    by_cases hid : u.id = u2.id
    · refine ⟨{ u2 with createdAt := u.createdAt }, ?_, rfl⟩
      have hrow : userUpdateRow u2 u = { u2 with createdAt := u.createdAt } := by
        simp [userUpdateRow, hid]
      simp [userFindByGoogleID, hrow, hg]
    · have hrow : userUpdateRow u2 u = u := by simp [userUpdateRow, hid]
      obtain ⟨w, hw, hwid⟩ := hex
      rcases List.mem_cons.mp hw with he | hm
      · exact absurd (he ▸ hwid) hid
      · obtain ⟨v, hv, hvid⟩ :=
          findGoogle_after_link gid u2 hg rest htail ⟨w, hm, hwid⟩
        exact ⟨v, by simp [userFindByGoogleID, List.map_cons, hrow, hhead, hv], hvid⟩

theorem findGoogle_append (gid : String) (v : User) (hg : v.googleID = some gid) :
    ∀ users : List User, userFindByGoogleID users gid = none →
      userFindByGoogleID (users ++ [v]) gid = some v
  | [], _ => by simp [userFindByGoogleID, hg]
  | u :: rest, hnone => by
    have hhead : (u.googleID == some gid) = false := by
      by_contra hcon
      simp only [Bool.not_eq_false, beq_iff_eq] at hcon
      simp [userFindByGoogleID, hcon] at hnone
    have htail : userFindByGoogleID rest gid = none := by
      simpa only [userFindByGoogleID, hhead, Bool.false_eq_true, if_false] using hnone
    simp only [List.cons_append, userFindByGoogleID, hhead, Bool.false_eq_true, if_false]
    exact findGoogle_append gid v hg rest htail

/-! ## C8 -/

/-- C8: LoginWithGoogle is idempotent. A second call with the same
provider id and email returns the same user id, leaves the store exactly
as the first call left it (no duplicate user is created), and when a user
with that provider id already exists the call returns that user with the
store unchanged. -/
theorem claim_C8_login_with_google_idempotent (users : List User)
    (gid email f1 f2 : String) (n1 n2 : Int) :
    ((loginWithGoogle (loginWithGoogle users gid email f1 n1).2 gid email f2 n2).1.id
       = (loginWithGoogle users gid email f1 n1).1.id)
  ∧ ((loginWithGoogle (loginWithGoogle users gid email f1 n1).2 gid email f2 n2).2
       = (loginWithGoogle users gid email f1 n1).2)
  ∧ (∀ u, userFindByGoogleID users gid = some u →
       loginWithGoogle users gid email f1 n1 = (u, users)) := by
  rcases hG : userFindByGoogleID users gid with _ | u
  · rcases hE : userFindByEmail users email with _ | u
    · have hfound := findGoogle_append gid
        { id := f1, email := email, passwordHash := none, googleID := some gid,
          globalCurrency := "RUB", createdAt := n1, updatedAt := n1 }
        rfl users hG
      refine ⟨?_, ?_, ?_⟩
      · simp [loginWithGoogle, hG, hE, hfound]
      · simp [loginWithGoogle, hG, hE, hfound]
      · intro u hu
        simp [hG] at hu
    · have hmem : u ∈ users := userFindByEmail_mem email users u hE
      obtain ⟨v, hv, hvid⟩ := findGoogle_after_link gid
        { u with googleID := some gid, updatedAt := n1 } rfl users hG ⟨u, hmem, rfl⟩
      refine ⟨?_, ?_, ?_⟩
      · simp [loginWithGoogle, hG, hE, hv, hvid]
      · simp [loginWithGoogle, hG, hE, hv]
      · intro w hw
        simp [hG] at hw
  · refine ⟨?_, ?_, ?_⟩
    · simp [loginWithGoogle, hG]
    · simp [loginWithGoogle, hG]
    · intro w hw
      obtain rfl : u = w := by injection hw
      simp [loginWithGoogle, hG]

/-- C8 witness: the demo store already links provider id g7 to userFed;
both calls return that user id and the second call changes nothing. -/
theorem claim_C8_witness :
    ((loginWithGoogle (loginWithGoogle userStore "g7" "fed@x.io" "f1" 1).2
        "g7" "fed@x.io" "f2" 2).1.id
      = (loginWithGoogle userStore "g7" "fed@x.io" "f1" 1).1.id)
  ∧ ((loginWithGoogle (loginWithGoogle userStore "g7" "fed@x.io" "f1" 1).2
        "g7" "fed@x.io" "f2" 2).2
      = (loginWithGoogle userStore "g7" "fed@x.io" "f1" 1).2)
  ∧ loginWithGoogle userStore "g7" "fed@x.io" "f1" 1 = (userFed, userStore) :=
  ⟨(claim_C8_login_with_google_idempotent userStore "g7" "fed@x.io" "f1" "f2" 1 2).1,
   (claim_C8_login_with_google_idempotent userStore "g7" "fed@x.io" "f1" "f2" 1 2).2.1,
   (claim_C8_login_with_google_idempotent userStore "g7" "fed@x.io" "f1" "f2" 1 2).2.2
     userFed (by decide)⟩

/-! ## C9 -/

/-- C9: an access token issued at t0 validates at every instant t from
issuance up to (strictly before) t0 plus the access duration, yielding
exactly the issued user id and email; from t0 plus the access duration
on, validation fails with the expired error. -/
theorem claim_C9_access_token_lifecycle (m : Manager) (uid email jti : String)
    (t0 t : Int) (h0 : t0 ≤ t) :
    (t < t0 + m.accessDuration →
      validateAccessToken m (generateAccessToken m uid email t0 jti) t
        = Except.ok
            { userID := uid, email := email, sub := "",
              exp := some (t0 + m.accessDuration), iat := some t0, nbf := some t0,
              jti := jti })
  ∧ (t0 + m.accessDuration ≤ t →
      validateAccessToken m (generateAccessToken m uid email t0 jti) t
        = Except.error TokenError.expired) := by
  constructor
  · intro hlt
    simp [validateAccessToken, parseToken, generateAccessToken, validateTimeClaims,
      decodeClaims, Option.any, show ¬ (t0 + m.accessDuration ≤ t) from by omega,
      show ¬ (t < t0) from by omega]
  · intro hge
    simp [validateAccessToken, parseToken, generateAccessToken, validateTimeClaims,
      Option.any, hge]

/-- C9 witness: with a 900-unit access duration, a token issued at 0
validates at instant 10 with the issued identity and is expired at
instant 900. -/
theorem claim_C9_witness :
    validateAccessToken demoManager (generateAccessToken demoManager "u1" "a@x.io" 0 "j1") 10
      = Except.ok
          { userID := "u1", email := "a@x.io", sub := "",
            exp := some (0 + demoManager.accessDuration), iat := some 0, nbf := some 0,
            jti := "j1" }
  ∧ validateAccessToken demoManager (generateAccessToken demoManager "u1" "a@x.io" 0 "j1") 900
      = Except.error TokenError.expired :=
  ⟨(claim_C9_access_token_lifecycle demoManager "u1" "a@x.io" "j1" 0 10 (by decide)).1
     (by decide),
   (claim_C9_access_token_lifecycle demoManager "u1" "a@x.io" "j1" 0 900 (by decide)).2
     (by decide)⟩

/-! ## C1 -/

/-- C1: the claim fails on the code. A refresh token is accepted by
ValidateAccessToken (decoding to claims with empty user id and email),
and an access token is accepted by ValidateRefreshToken (decoding to an
empty subject): both validators verify the same signature and registered
time claims and ignore the claim shape, so neither returns an error on a
token of the other kind. -/
theorem claim_C1_cross_acceptance :
    validateAccessToken demoManager (generateRefreshToken demoManager "u1" 0 "jr") 0
      = Except.ok
          { userID := "", email := "", sub := "u1", exp := some 86400,
            iat := some 0, nbf := some 0, jti := "jr" }
  ∧ validateRefreshToken demoManager (generateAccessToken demoManager "u1" "a@x.io" 0 "ja") 0
      = Except.ok "" :=
  ⟨rfl, rfl⟩

/-- C10 witness: the rule of user A survives an attempt by user B to
delete it by id. -/
theorem claim_C10_witness :
    ruleA ∈ (deleteRule ruleStoreAB "B" "rA").2 :=
  (claim_C10_delete_rule_safety ruleStoreAB "B" "rA" (by decide)).1 ruleA
    (by decide) (by decide)
